import Mathlib

/-!
Shallow embedding of the post & variation store of `src/server/services/posts.ts`
(and the schema in `src/server/db/schema.ts`) of the social-media-assistant
repository, together with theorems settling the frozen claims about it.

Modelling conventions:
* The posts table is a `List Post`; the drizzle `findFirst` on the primary key is
  `List.find?`, `update ... where id` is a map over the list, `delete ... where id`
  is a filter, `insert` is an append.
* `Date` timestamps are `Nat`; the source stores ISO-8601 renderings of dates in
  variation records, an injective function of the timestamp, so timestamp
  equality below is equality of the stored strings.
* The `hashtags` column stores `JSON.stringify` of a string list; since that
  serialisation is injective, the column is modelled as the list itself
  (`Option (List String)`, `none` = SQL NULL).
* Calls to external collaborators (LLM text/prompt generation, image
  generation + upload, R2 blob deletion) are modelled as parameters carrying the
  outcome of the collaborator for the call; fallible collaborators are `Except`.
* `nanoid()` draws are passed in as explicit id parameters.
-/

/-- Tone options, `TONE_OPTIONS` in `schema.ts`. -/
inductive ToneOption where
  | formal
  | friendly
  | spicy
  | minimal
deriving DecidableEq, Repr

/-- Image styles, `IMAGE_STYLES` in `schema.ts`. -/
inductive ImageStyle where
  | aiPhoto
  | textCard
deriving DecidableEq, Repr

/-- Post statuses, `POST_STATUSES` in `schema.ts`. -/
inductive PostStatus where
  | draft
  | approved
  | rejected
  | posted
deriving DecidableEq, Repr

/-- `TextVariation` of `schema.ts`: a candidate replacement for
hook/caption/hashtags kept in the history document of the post.
`createdAt` is the timestamp whose ISO rendering the source stores. -/
structure TextVariation where
  id : String
  hook : String
  caption : String
  hashtags : List String
  feedback : String
  tone : Option ToneOption
  createdAt : Nat
  accepted : Bool
deriving DecidableEq, Repr

/-- `ImageVariation` of `schema.ts`: an archived or newly generated image
record in the history document of the post. -/
structure ImageVariation where
  id : String
  imagePrompt : String
  imageUrl : Option String
  imageKey : Option String
  feedback : String
  createdAt : Nat
  accepted : Bool
deriving DecidableEq, Repr

/-- `VariationHistory` of `schema.ts`: the embedded history document. -/
structure VariationHistory where
  textVariations : List TextVariation
  imageVariations : List ImageVariation
deriving DecidableEq, Repr

/-- `emptyHistory` constant of `posts.ts`. -/
def emptyHistory : VariationHistory :=
  { textVariations := [], imageVariations := [] }

/-- JSON values, the possible results of a successful `JSON.parse` of the
`history` column text. Numbers are restricted to the timestamps this model
stores in them. -/
inductive Json where
  | null
  | bool (b : Bool)
  | num (n : Nat)
  | str (s : String)
  | arr (elems : List Json)
  | obj (fields : List (String × Json))

/-- The `history` text column as the control flow of the source can distinguish it:
SQL NULL or the empty string (both falsy, so the `!historyStr`
guard in `parseHistory` fires), text `JSON.parse` throws on, or text `JSON.parse` accepts,
carrying the parsed value. -/
inductive HistoryCol where
  | absent
  | unparseable
  | parsed (j : Json)

/- JSON encoding of history documents, modelling `JSON.stringify` of the
in-memory history the services write back. -/

/-- Encoding of the `tone` field (`ToneOption | null`). -/
def encodeTone : Option ToneOption → Json
  | none => .null
  | some .formal => .str "formal"
  | some .friendly => .str "friendly"
  | some .spicy => .str "spicy"
  | some .minimal => .str "minimal"

/-- Encoding of a nullable string column value. -/
def encodeOptStr : Option String → Json
  | none => .null
  | some s => .str s

/-- Encoding of one text-variation record, field order as constructed in
`createTextVariations`. -/
def encodeTextVariation (v : TextVariation) : Json :=
  .obj [("id", .str v.id), ("hook", .str v.hook), ("caption", .str v.caption),
        ("hashtags", .arr (v.hashtags.map .str)), ("feedback", .str v.feedback),
        ("tone", encodeTone v.tone), ("createdAt", .num v.createdAt),
        ("accepted", .bool v.accepted)]

/-- Encoding of one image-variation record, field order as constructed in
`regenerateImage`. -/
def encodeImageVariation (v : ImageVariation) : Json :=
  .obj [("id", .str v.id), ("imagePrompt", .str v.imagePrompt),
        ("imageUrl", encodeOptStr v.imageUrl), ("imageKey", encodeOptStr v.imageKey),
        ("feedback", .str v.feedback), ("createdAt", .num v.createdAt),
        ("accepted", .bool v.accepted)]

/-- Encoding of a whole history document, the value `JSON.stringify(history)`
writes to the `history` column. -/
def encodeHistory (h : VariationHistory) : Json :=
  .obj [("textVariations", .arr (h.textVariations.map encodeTextVariation)),
        ("imageVariations", .arr (h.imageVariations.map encodeImageVariation))]

/- Decoding: the services cast the parsed JSON to `VariationHistory` without
validation, so a value of the wrong shape is detected only when a later field
access or array method faults with a TypeError. `decode*` returning `none`
models that deferred fault. The decoders recognise the canonical shape the
system `JSON.stringify` calls emit (the shape every system-written history
has); the lazy faulting of the source on exotic hand-written values that are
partially of that shape is not distinguished by any claim. -/

/-- Decoding of the `tone` field. -/
def decodeTone : Json → Option (Option ToneOption)
  | .null => some none
  | .str "formal" => some (some .formal)
  | .str "friendly" => some (some .friendly)
  | .str "spicy" => some (some .spicy)
  | .str "minimal" => some (some .minimal)
  | _ => none

/-- Decoding of a nullable string value. -/
def decodeOptStr : Json → Option (Option String)
  | .null => some none
  | .str s => some (some s)
  | _ => none

/-- Decoding of a JSON array of strings. -/
def decodeStrList : List Json → Option (List String)
  | [] => some []
  | .str s :: rest => (decodeStrList rest).map (s :: ·)
  | _ => none

/-- Decoding of one text-variation record. -/
def decodeTextVariation : Json → Option TextVariation
  | .obj [("id", .str i), ("hook", .str hk), ("caption", .str c),
          ("hashtags", .arr hs), ("feedback", .str f), ("tone", t),
          ("createdAt", .num ca), ("accepted", .bool a)] =>
      (decodeStrList hs).bind fun hsl =>
        (decodeTone t).map fun tn =>
          { id := i, hook := hk, caption := c, hashtags := hsl, feedback := f,
            tone := tn, createdAt := ca, accepted := a }
  | _ => none

/-- Decoding of one image-variation record. -/
def decodeImageVariation : Json → Option ImageVariation
  | .obj [("id", .str i), ("imagePrompt", .str ip), ("imageUrl", u),
          ("imageKey", k), ("feedback", .str f), ("createdAt", .num ca),
          ("accepted", .bool a)] =>
      (decodeOptStr u).bind fun uu =>
        (decodeOptStr k).map fun kk =>
          { id := i, imagePrompt := ip, imageUrl := uu, imageKey := kk,
            feedback := f, createdAt := ca, accepted := a }
  | _ => none

/-- Decoding of a list of text-variation records. -/
def decodeTvList : List Json → Option (List TextVariation)
  | [] => some []
  | j :: rest =>
      (decodeTextVariation j).bind fun v => (decodeTvList rest).map (v :: ·)

/-- Decoding of a list of image-variation records. -/
def decodeIvList : List Json → Option (List ImageVariation)
  | [] => some []
  | j :: rest =>
      (decodeImageVariation j).bind fun v => (decodeIvList rest).map (v :: ·)

/-- Decoding of a whole history document. -/
def decodeHistory : Json → Option VariationHistory
  | .obj [("textVariations", .arr tvs), ("imageVariations", .arr ivs)] =>
      (decodeTvList tvs).bind fun ts =>
        (decodeIvList ivs).map fun is => { textVariations := ts, imageVariations := is }
  | _ => none

/-- `parseHistory` of `posts.ts`, fused with the deferred shape fault of the
unchecked `as VariationHistory` cast: an absent (NULL/empty, falsy) or
unparseable column yields `emptyHistory` without error; a parsed JSON value is
used unvalidated, so a value that does not have the history shape makes the
calling operation fault (`none` here). -/
def parseHistory : HistoryCol → Option VariationHistory
  | .absent => some emptyHistory
  | .unparseable => some emptyHistory
  | .parsed j => decodeHistory j

/-- A row of the `posts` table (`schema.ts`). -/
structure Post where
  id : String
  pillar : String
  mainIdea : String
  hook : String
  caption : String
  hashtags : Option (List String)
  imageStyle : ImageStyle
  imagePrompt : String
  imageUrl : Option String
  imageKey : Option String
  status : PostStatus
  batchId : String
  history : HistoryCol
  createdBy : Option String
  approvedBy : Option String
  rejectedBy : Option String
  postedBy : Option String
  createdAt : Nat
  updatedAt : Nat

/-- The posts table. -/
abbrev DB := List Post

/-- JavaScript truthiness of a nullable string column: `null` and the empty
string are falsy. Models guards like `if (post.imageUrl)`. -/
def isTruthy : Option String → Bool
  | none => false
  | some s => !(s == "")

/-- `getPost` of `posts.ts`: `findFirst` on the primary key. (The relation
joins attach users and never affect control flow modelled here.) -/
def getPost (db : DB) (id : String) : Option Post :=
  db.find? (fun p => p.id == id)

/-- `db.update(posts).set(...).where(eq(posts.id, id))`: apply `f` to the rows
whose id matches. -/
def updateWhere (db : DB) (id : String) (f : Post → Post) : DB :=
  db.map (fun p => if p.id == id then f p else p)

/-- The service-level failure outcomes (`throw new Error(...)` sites, the
TypeError of an unchecked history access, and collaborator failures). -/
inductive SvcError where
  | notFound
  | variationNotFound
  | typeError
  | generationFailed
deriving DecidableEq, Repr

/-- The re-flagging map of `acceptTextVariation`:
`history.textVariations.map((v) => ({...v, accepted: v.id === variationId}))`. -/
def setAccepted (variationId : String) (l : List TextVariation) : List TextVariation :=
  l.map (fun v => { v with accepted := v.id == variationId })

/-- The `.set({...})` row update of `acceptTextVariation`: canonical
hook/caption/hashtags from the found variation, the re-serialised history with
re-flagged text variations, and the bumped `updatedAt`. -/
def acceptRow (variation : TextVariation) (history : VariationHistory)
    (variationId : String) (now : Nat) (p : Post) : Post :=
  { p with hook := variation.hook, caption := variation.caption,
           hashtags := some variation.hashtags,
           history := .parsed (encodeHistory { history with
             textVariations := setAccepted variationId history.textVariations }),
           updatedAt := now }

/-- `acceptTextVariation` of `posts.ts`: find the post, read its history, find
the variation, set `accepted` on exactly the matching ids, copy the
hook/caption/hashtags of the found variation into the canonical columns, persist history
and `updatedAt` in the same update, and re-read the post. Errors return the
database unchanged, as the source throws before its single `db.update`. -/
def acceptTextVariation (db : DB) (postId variationId : String) (now : Nat) :
    DB × Except SvcError (Option Post) :=
  match getPost db postId with
  | none => (db, .error .notFound)
  | some post =>
    match parseHistory post.history with
    | none => (db, .error .typeError)
    | some history =>
      match history.textVariations.find? (fun v => v.id == variationId) with
      | none => (db, .error .variationNotFound)
      | some variation =>
        let db' := updateWhere db postId (acceptRow variation history variationId now)
        (db', .ok (getPost db' postId))

/-- One candidate text variation as returned by the LLM collaborator
(`generateTextVariations` in `text-card.ts`); the prompt requests exactly 3
such candidates but the output schema does not enforce the count. -/
structure GeneratedVariation where
  hook : String
  caption : String
  hashtags : List String
deriving DecidableEq, Repr

/-- `TextVariationResult` of `posts.ts`, the projection returned to callers. -/
structure TextVariationResult where
  id : String
  hook : String
  caption : String
  hashtags : List String
deriving DecidableEq, Repr

/-- The `.set({...})` row update of `createTextVariations`: only the
re-serialised history (with the new records appended) and `updatedAt`. -/
def appendHistoryRow (history : VariationHistory) (recs : List TextVariation)
    (now : Nat) (p : Post) : Post :=
  { p with history := .parsed (encodeHistory { history with
             textVariations := history.textVariations ++ recs }),
           updatedAt := now }

/-- `createTextVariations` of `posts.ts`: find the post, obtain candidates
from the LLM collaborator (`gen`, its successful output; a collaborator
failure aborts before any read of the history and writes nothing), read the
history, build one record per candidate with a fresh id (`ids`, the `nanoid()`
draws), `accepted = false` and the feedback of the caller, append them in order,
and persist only the history column and `updatedAt`. -/
def createTextVariations (db : DB) (postId feedback : String)
    (tone : Option ToneOption) (gen : List GeneratedVariation)
    (ids : List String) (now : Nat) :
    DB × Except SvcError (List TextVariationResult) :=
  match getPost db postId with
  | none => (db, .error .notFound)
  | some post =>
    match parseHistory post.history with
    | none => (db, .error .typeError)
    | some history =>
      let variationRecords : List TextVariation :=
        (gen.zip ids).map (fun vi =>
          { id := vi.2, hook := vi.1.hook, caption := vi.1.caption,
            hashtags := vi.1.hashtags, feedback := feedback, tone := tone,
            createdAt := now, accepted := false })
      let db' := updateWhere db postId (appendHistoryRow history variationRecords now)
      (db', .ok (variationRecords.map (fun r =>
        { id := r.id, hook := r.hook, caption := r.caption, hashtags := r.hashtags })))

/-- The archive entry `regenerateImage` pushes before replacing a truthy
current image: current prompt/url/key, feedback the literal `"original"`,
timestamp the `createdAt` of the post (not now), not accepted. -/
def archiveVariation (archiveId : String) (post : Post) : ImageVariation :=
  { id := archiveId, imagePrompt := post.imagePrompt, imageUrl := post.imageUrl,
    imageKey := post.imageKey, feedback := "original",
    createdAt := post.createdAt, accepted := false }

/-- The entry `regenerateImage` pushes for the newly generated image: improved
prompt, fresh url/key, the feedback text of the caller, timestamp now,
accepted. -/
def newImageVariation (newId improvedPrompt url key feedback : String)
    (now : Nat) : ImageVariation :=
  { id := newId, imagePrompt := improvedPrompt, imageUrl := some url,
    imageKey := some key, feedback := feedback, createdAt := now,
    accepted := true }

/-- The `.set({...})` row update of `regenerateImage`: new canonical image
prompt/url/key, the re-serialised history, and `updatedAt`. -/
def regenRow (improvedPrompt url key : String) (h' : VariationHistory)
    (now : Nat) (p : Post) : Post :=
  { p with imagePrompt := improvedPrompt, imageUrl := some url,
           imageKey := some key, history := .parsed (encodeHistory h'),
           updatedAt := now }

/-- `regenerateImage` of `posts.ts`: find the post, obtain the improved prompt
from the LLM collaborator (`improvedPrompt`, its successful output), read the
history, archive the current image when the current `imageUrl` is truthy
(feedback literally `"original"`, timestamp the `createdAt` of the post), attempt
image generation (`imgResult`; both the ai-photo and the text-card route yield
a url/key pair or throw), append the new image as accepted with timestamp
`now`, overwrite the canonical image columns, persist, and re-read. An image
failure propagates and nothing is persisted (the archive push was in-memory
only). -/
def regenerateImage (db : DB) (postId feedback improvedPrompt : String)
    (imgResult : Except Unit (String × String))
    (archiveId newId : String) (now : Nat) :
    DB × Except SvcError (Option Post) :=
  match getPost db postId with
  | none => (db, .error .notFound)
  | some post =>
    match parseHistory post.history with
    | none => (db, .error .typeError)
    | some history =>
      let archived : List ImageVariation :=
        if isTruthy post.imageUrl then [archiveVariation archiveId post] else []
      match imgResult with
      | .error _ => (db, .error .generationFailed)
      | .ok (url, key) =>
        let h' := { history with
          imageVariations := history.imageVariations ++ archived ++
            [newImageVariation newId improvedPrompt url key feedback now] }
        let db' := updateWhere db postId (regenRow improvedPrompt url key h' now)
        (db', .ok (getPost db' postId))

/-- `approvePost` of `posts.ts`: unconditionally update status/actor/updatedAt
on the matching row, then re-read; a missing post surfaces as the `undefined`
result (the NotFound outcome of the spec), never as a thrown error. -/
def approvePost (db : DB) (id : String) (user : Option String) (now : Nat) :
    DB × Option Post :=
  let db' := updateWhere db id (fun p =>
    { p with status := .approved, approvedBy := user, updatedAt := now })
  (db', getPost db' id)

/-- `rejectPost` of `posts.ts`, same shape as `approvePost`. -/
def rejectPost (db : DB) (id : String) (user : Option String) (now : Nat) :
    DB × Option Post :=
  let db' := updateWhere db id (fun p =>
    { p with status := .rejected, rejectedBy := user, updatedAt := now })
  (db', getPost db' id)

/-- `markPostAsPosted` of `posts.ts`, same shape as `approvePost`. -/
def markPostAsPosted (db : DB) (id : String) (user : Option String) (now : Nat) :
    DB × Option Post :=
  let db' := updateWhere db id (fun p =>
    { p with status := .posted, postedBy := user, updatedAt := now })
  (db', getPost db' id)

/-- `deletePost` of `posts.ts`: read the post; when it exists and its
`imageKey` is truthy, best-effort delete the blob from R2 (`r2ok` is the
collaborator outcome; a failure is caught and only logged), then delete the
row. The R2 key store is a key list. The function has no throw site of its
own, so its codomain carries no error. -/
def deletePost (db : DB) (r2 : List String) (r2ok : Bool) (id : String) :
    DB × List String :=
  let r2' :=
    match getPost db id with
    | some post =>
      if isTruthy post.imageKey then
        match post.imageKey with
        | some key => if r2ok then r2.erase key else r2
        | none => r2
      else r2
    | none => r2
  (db.filter (fun p => !(p.id == id)), r2')

/-- One candidate post as returned by the LLM content generator
(`generatePosts` in `text-card.ts`). -/
structure GeneratedContent where
  pillar : String
  mainIdea : String
  hook : String
  caption : String
  hashtags : List String
  imageStyle : ImageStyle
  imagePrompt : String
deriving DecidableEq, Repr

/-- The row `generatePostsBatch` inserts for one candidate: canonical fields
from the candidate, image columns from the image outcome of the collaborator for
that candidate (nulls when it failed), `status = draft`, the shared batch id,
no history, timestamps `now`. -/
def mkBatchPost (c : GeneratedContent) (out : Except Unit (String × String))
    (postId batchId : String) (createdBy : Option String) (now : Nat) : Post :=
  { id := postId, pillar := c.pillar, mainIdea := c.mainIdea, hook := c.hook,
    caption := c.caption, hashtags := some c.hashtags,
    imageStyle := c.imageStyle, imagePrompt := c.imagePrompt,
    imageUrl := match out with | .ok uk => some uk.1 | .error _ => none,
    imageKey := match out with | .ok uk => some uk.2 | .error _ => none,
    status := .draft, batchId := batchId, history := .absent,
    createdBy := createdBy, approvedBy := none, rejectedBy := none,
    postedBy := none, createdAt := now, updatedAt := now }

/-- Result of `generatePostsBatch`. -/
structure GenerateBatchResult where
  batchId : String
  posts : List Post

/-- `generatePostsBatch` of `posts.ts`: one LLM call yields the candidates
(`contents`, its successful output); for each candidate the image collaborator
is attempted independently (`outs`, one outcome per candidate; a failure is
caught, logged and replaced by null image columns) and the post is inserted
with a fresh id (`ids`), `status = draft` and the shared `batchId`. The
sequential inserts of the loop append the new rows to the table in order. -/
def generatePostsBatch (db : DB) (batchId : String)
    (contents : List GeneratedContent) (outs : List (Except Unit (String × String)))
    (ids : List String) (createdBy : Option String) (now : Nat) :
    DB × GenerateBatchResult :=
  let newPosts := (contents.zip (outs.zip ids)).map (fun x =>
    mkBatchPost x.1 x.2.1 x.2.2 batchId createdBy now)
  (db ++ newPosts, { batchId := batchId, posts := newPosts })

/- Concrete fixtures used to instantiate the theorems below on closed inputs. -/

/-- A concrete stored text variation. -/
def exTV1 : TextVariation :=
  { id := "v1", hook := "H1", caption := "C1", hashtags := ["h1", "h2"],
    feedback := "shorter", tone := none, createdAt := 2, accepted := false }

/-- A second concrete stored text variation. -/
def exTV2 : TextVariation :=
  { id := "v2", hook := "H2", caption := "C2", hashtags := ["h3"],
    feedback := "shorter", tone := some .friendly, createdAt := 2, accepted := true }

/-- A concrete history document with two text variations. -/
def exHistory : VariationHistory :=
  { textVariations := [exTV1, exTV2], imageVariations := [] }

/-- A concrete post row; `status = posted` so the status-preservation claim is
exercised on the very case the spec calls out. -/
def basePost : Post :=
  { id := "p1", pillar := "pill", mainIdea := "idea", hook := "H", caption := "C",
    hashtags := some ["a"], imageStyle := .aiPhoto, imagePrompt := "ip",
    imageUrl := some "http://img", imageKey := some "key", status := .posted,
    batchId := "b1", history := .parsed (encodeHistory exHistory),
    createdBy := none, approvedBy := none, rejectedBy := none, postedBy := none,
    createdAt := 1, updatedAt := 1 }

/-- A post whose current `imageUrl` is the empty string: non-null, but falsy
for the `if (post.imageUrl)` archive guard of `regenerateImage`. -/
def emptyUrlPost : Post :=
  { basePost with imageUrl := some "", history := .absent }

/-- A post whose `history` column holds `"{}"`: valid JSON without the
history shape, so the unchecked cast in `parseHistory` defers a TypeError to
the first field access. -/
def badHistoryPost : Post :=
  { basePost with history := .parsed (.obj []) }

/-- A concrete generated candidate for batch generation. -/
def exContent1 : GeneratedContent :=
  { pillar := "pill", mainIdea := "idea1", hook := "BH1", caption := "BC1",
    hashtags := ["t1"], imageStyle := .aiPhoto, imagePrompt := "bp1" }

/-- A second concrete generated candidate. -/
def exContent2 : GeneratedContent :=
  { pillar := "pill", mainIdea := "idea2", hook := "BH2", caption := "BC2",
    hashtags := ["t2"], imageStyle := .textCard, imagePrompt := "bp2" }

/-- A concrete LLM output for `createTextVariations`. -/
def exGen : List GeneratedVariation :=
  [{ hook := "G1", caption := "GC1", hashtags := ["g1"] },
   { hook := "G2", caption := "GC2", hashtags := ["g2"] },
   { hook := "G3", caption := "GC3", hashtags := ["g3"] }]

/-- True exactly when a service outcome is a success (no thrown error). -/
def isOkResult {α : Type} : Except SvcError α → Bool
  | .ok _ => true
  | .error _ => false

/- Helper lemmas. -/

/-- `get?` distributes over `zip` index-wise. -/
theorem get?_zip_eq {α β : Type} (l₁ : List α) (l₂ : List β) (j : Nat) :
    (l₁.zip l₂).get? j =
      (l₁.get? j).bind fun a => (l₂.get? j).map fun b => (a, b) := by
  induction l₁ generalizing l₂ j with
  | nil => simp
  | cons a rest ih =>
    cases l₂ with
    | nil => simp
    | cons b rest₂ =>
      cases j with
      | zero => rfl
      | succ n => simpa using ih rest₂ n

/-- Round trip for the tone encoding. -/
theorem decodeTone_encodeTone (t : Option ToneOption) :
    decodeTone (encodeTone t) = some t := by
  cases t with
  | none => rfl
  | some tn => cases tn <;> rfl

/-- Round trip for nullable strings. -/
theorem decodeOptStr_encodeOptStr (s : Option String) :
    decodeOptStr (encodeOptStr s) = some s := by
  cases s <;> rfl

/-- Round trip for string arrays. -/
theorem decodeStrList_map_str (l : List String) :
    decodeStrList (l.map Json.str) = some l := by
  induction l with
  | nil => rfl
  | cons s rest ih => simp [List.map, decodeStrList, ih]

/-- Round trip for one text-variation record. -/
theorem decodeTextVariation_encode (v : TextVariation) :
    decodeTextVariation (encodeTextVariation v) = some v := by
  simp [encodeTextVariation, decodeTextVariation, decodeStrList_map_str,
    decodeTone_encodeTone]

/-- Round trip for one image-variation record. -/
theorem decodeImageVariation_encode (v : ImageVariation) :
    decodeImageVariation (encodeImageVariation v) = some v := by
  simp [encodeImageVariation, decodeImageVariation, decodeOptStr_encodeOptStr]

/-- Round trip for lists of text-variation records. -/
theorem decodeTvList_map_encode (l : List TextVariation) :
    decodeTvList (l.map encodeTextVariation) = some l := by
  induction l with
  | nil => rfl
  | cons v rest ih => simp [List.map, decodeTvList, decodeTextVariation_encode, ih]

/-- Round trip for lists of image-variation records. -/
theorem decodeIvList_map_encode (l : List ImageVariation) :
    decodeIvList (l.map encodeImageVariation) = some l := by
  induction l with
  | nil => rfl
  | cons v rest ih => simp [List.map, decodeIvList, decodeImageVariation_encode, ih]

/-- Round trip for whole history documents: a history the services serialise
is read back unchanged. -/
theorem decodeHistory_encodeHistory (h : VariationHistory) :
    decodeHistory (encodeHistory h) = some h := by
  simp [encodeHistory, decodeHistory, decodeTvList_map_encode, decodeIvList_map_encode]

/-- Reading back the id-matching row after an id-preserving update yields the
updated row. -/
theorem getPost_updateWhere (db : DB) (pid : String) (f : Post → Post)
    (hf : ∀ p, (f p).id = p.id) :
    getPost (updateWhere db pid f) pid = (getPost db pid).map f := by
  induction db with
  | nil => rfl
  | cons p rest ih =>
    simp only [getPost, updateWhere, List.map_cons] at ih ⊢
    by_cases h : (p.id == pid) = true
    · rw [if_pos h]
      simp only [List.find?_cons, hf p, h, Option.map_some']
    · have h' : (p.id == pid) = false := by simpa using h
      rw [if_neg h]
      simp only [List.find?_cons, h']
      exact ih

/-- `find?` by id returns the member with that id when ids are duplicate-free. -/
theorem find?_id_of_mem_nodup {l : List TextVariation} {v : TextVariation}
    {vid : String} (hmem : v ∈ l) (hvid : v.id = vid)
    (hn : (l.map TextVariation.id).Nodup) :
    l.find? (fun w => w.id == vid) = some v := by
  induction l with
  | nil => cases hmem
  | cons a rest ih =>
    rw [List.map_cons, List.nodup_cons] at hn
    rcases List.mem_cons.mp hmem with rfl | hmem'
    · rw [List.find?_cons]
      simp [hvid]
    · have hne : (a.id == vid) = false := by
        apply beq_eq_false_iff_ne.mpr
        intro hcontra
        have hv : v.id ∈ rest.map TextVariation.id :=
          List.mem_map_of_mem TextVariation.id hmem'
        rw [hvid, ← hcontra] at hv
        exact hn.1 hv
      rw [List.find?_cons, hne]
      exact ih hmem' hn.2

/-- With duplicate-free ids, exactly one entry of the list carries the id of a
member. -/
theorem countP_id_of_mem_nodup {l : List TextVariation} {v : TextVariation}
    {vid : String} (hmem : v ∈ l) (hvid : v.id = vid)
    (hn : (l.map TextVariation.id).Nodup) :
    l.countP (fun w => w.id == vid) = 1 := by
  induction l with
  | nil => cases hmem
  | cons a rest ih =>
    rw [List.map_cons, List.nodup_cons] at hn
    rw [List.countP_cons]
    rcases List.mem_cons.mp hmem with rfl | hmem'
    · have hzero : rest.countP (fun w => w.id == vid) = 0 := by
        apply List.countP_eq_zero.mpr
        intro w hw hcontra
        have hwid : w.id = vid := by simpa using hcontra
        have hv : w.id ∈ rest.map TextVariation.id :=
          List.mem_map_of_mem TextVariation.id hw
        rw [hwid, ← hvid] at hv
        exact hn.1 hv
      simp [hzero, hvid]
    · have hne : (a.id == vid) = false := by
        apply beq_eq_false_iff_ne.mpr
        intro hcontra
        have hv : v.id ∈ rest.map TextVariation.id :=
          List.mem_map_of_mem TextVariation.id hmem'
        rw [hvid, ← hcontra] at hv
        exact hn.1 hv
      rw [ih hmem' hn.2, hne]
      rfl

/-- Characterisation of a successful `acceptTextVariation` run: the matching
row gets the canonical fields of the found variation, the re-serialised
history with the re-flagged text variations, and the new `updatedAt`; the
returned post is that updated row. -/
theorem accept_spec {db : DB} {postId variationId : String} {now : Nat}
    {post : Post} {history : VariationHistory} {variation : TextVariation}
    (hpost : getPost db postId = some post)
    (hh : parseHistory post.history = some history)
    (hf : history.textVariations.find? (fun v => v.id == variationId) = some variation) :
    acceptTextVariation db postId variationId now =
      (updateWhere db postId (acceptRow variation history variationId now),
       .ok (some (acceptRow variation history variationId now post))) := by
  simp only [acceptTextVariation, hpost, hh, hf]
  rw [getPost_updateWhere db postId (acceptRow variation history variationId now)
    (fun p => rfl), hpost, Option.map_some']

/-- Re-flagging the same id twice is the same as once. -/
theorem setAccepted_idem (vid : String) (l : List TextVariation) :
    setAccepted vid (setAccepted vid l) = setAccepted vid l := by
  unfold setAccepted
  rw [List.map_map]
  rfl

/-- C1: immediately after a successful `acceptTextVariation`, exactly one
entry of the text-variation log is accepted, namely the one whose id was
passed in; all others are false. Ids of stored variations are `nanoid()`
draws, so the log carries no duplicate ids (`hn`). -/
theorem acceptTextVariation_exclusive_accept
    {db : DB} {postId variationId : String} {now : Nat}
    {post : Post} {history : VariationHistory} {variation : TextVariation}
    (hpost : getPost db postId = some post)
    (hh : parseHistory post.history = some history)
    (hf : history.textVariations.find? (fun v => v.id == variationId) = some variation)
    (hn : (history.textVariations.map TextVariation.id).Nodup) :
    ∃ db' p' h', acceptTextVariation db postId variationId now = (db', .ok (some p')) ∧
      parseHistory p'.history = some h' ∧
      (∀ v ∈ h'.textVariations, v.accepted = (v.id == variationId)) ∧
      h'.textVariations.countP (fun v => v.accepted) = 1 := by
  refine ⟨_, _, _, accept_spec hpost hh hf, decodeHistory_encodeHistory _, ?_, ?_⟩
  · intro v hv
    simp only [setAccepted, List.mem_map] at hv
    rcases hv with ⟨w, _, rfl⟩
    rfl
  · show (setAccepted variationId history.textVariations).countP
      (fun v => v.accepted) = 1
    rw [setAccepted, List.countP_map]
    rw [show ((fun v : TextVariation => v.accepted) ∘
        (fun v : TextVariation => { v with accepted := v.id == variationId })) =
      (fun w : TextVariation => w.id == variationId) from funext fun v => rfl]
    have hmem := List.mem_of_find?_eq_some hf
    have hvid : variation.id = variationId := by
      have := List.find?_some hf
      simpa using this
    exact countP_id_of_mem_nodup hmem hvid hn

/-- C1 witness: the theorem applied to a concrete store with two variations. -/
theorem acceptTextVariation_exclusive_accept_witness :
    getPost [basePost] "p1" = some basePost ∧
    parseHistory basePost.history = some exHistory ∧
    exHistory.textVariations.find? (fun v => v.id == "v1") = some exTV1 ∧
    (exHistory.textVariations.map TextVariation.id).Nodup ∧
    (∃ db' p' h', acceptTextVariation [basePost] "p1" "v1" 5 = (db', .ok (some p')) ∧
      parseHistory p'.history = some h' ∧
      (∀ v ∈ h'.textVariations, v.accepted = (v.id == "v1")) ∧
      h'.textVariations.countP (fun v => v.accepted) = 1) :=
  ⟨rfl, rfl, rfl, by decide,
   acceptTextVariation_exclusive_accept rfl rfl rfl (by decide)⟩

/-- C7: `acceptTextVariation` leaves `status` untouched; in particular a
`posted` post stays `posted`. -/
theorem acceptTextVariation_preserves_status
    {db : DB} {postId variationId : String} {now : Nat}
    {post : Post} {history : VariationHistory} {variation : TextVariation}
    (hpost : getPost db postId = some post)
    (hh : parseHistory post.history = some history)
    (hf : history.textVariations.find? (fun v => v.id == variationId) = some variation) :
    ∃ db' p', acceptTextVariation db postId variationId now = (db', .ok (some p')) ∧
      p'.status = post.status ∧ (post.status = .posted → p'.status = .posted) :=
  ⟨_, _, accept_spec hpost hh hf, rfl, fun h => h⟩

/-- C7 witness: accepting on a concrete `posted` post keeps it `posted`. -/
theorem acceptTextVariation_preserves_status_witness :
    getPost [basePost] "p1" = some basePost ∧ basePost.status = .posted ∧
    (∃ db' p', acceptTextVariation [basePost] "p1" "v1" 5 = (db', .ok (some p')) ∧
      p'.status = basePost.status ∧ (basePost.status = .posted → p'.status = .posted)) :=
  ⟨rfl, rfl, acceptTextVariation_preserves_status rfl rfl rfl⟩

/-- C5: `acceptTextVariation` fails with NotFound when the post is missing and
with VariationNotFound when the post exists (with a readable history) but no
text variation carries the id; both failures leave the store untouched. -/
theorem acceptTextVariation_error_cases (db : DB) (postId variationId : String)
    (now : Nat) :
    (getPost db postId = none →
      acceptTextVariation db postId variationId now = (db, .error .notFound)) ∧
    (∀ post history, getPost db postId = some post →
      parseHistory post.history = some history →
      (∀ v ∈ history.textVariations, v.id ≠ variationId) →
      acceptTextVariation db postId variationId now = (db, .error .variationNotFound)) := by
  constructor
  · intro h
    simp [acceptTextVariation, h]
  · intro post history hpost hh hnone
    have hfind : history.textVariations.find? (fun v => v.id == variationId) = none := by
      apply List.find?_eq_none.mpr
      intro v hv
      simpa using hnone v hv
    simp [acceptTextVariation, hpost, hh, hfind]

/-- C5 witness: both failure modes on concrete stores, with the store
returned unchanged. -/
theorem acceptTextVariation_error_cases_witness :
    acceptTextVariation [] "p1" "v1" 0 = ([], .error .notFound) ∧
    acceptTextVariation [basePost] "p1" "zz" 0 = ([basePost], .error .variationNotFound) :=
  ⟨(acceptTextVariation_error_cases [] "p1" "v1" 0).1 rfl,
   (acceptTextVariation_error_cases [basePost] "p1" "zz" 0).2 basePost exHistory
     rfl rfl (by decide)⟩

/-- C2: a successful accept copies hook/caption/hashtags of the chosen
variation into the canonical columns, and accepting the same variation again
yields the same canonical fields and the same stored history (so the same
acceptance flags); only `updatedAt` can differ between the two runs. -/
theorem acceptTextVariation_copies_fields_idempotent
    {db : DB} {postId variationId : String} {now₁ now₂ : Nat}
    {post : Post} {history : VariationHistory} {V : TextVariation}
    (hpost : getPost db postId = some post)
    (hh : parseHistory post.history = some history)
    (hV : V ∈ history.textVariations) (hVid : V.id = variationId)
    (hn : (history.textVariations.map TextVariation.id).Nodup) :
    ∃ db₁ p₁ db₂ p₂,
      acceptTextVariation db postId variationId now₁ = (db₁, .ok (some p₁)) ∧
      p₁.hook = V.hook ∧ p₁.caption = V.caption ∧ p₁.hashtags = some V.hashtags ∧
      acceptTextVariation db₁ postId variationId now₂ = (db₂, .ok (some p₂)) ∧
      p₂.hook = p₁.hook ∧ p₂.caption = p₁.caption ∧ p₂.hashtags = p₁.hashtags ∧
      p₂.history = p₁.history := by
  have hf₁ : history.textVariations.find? (fun v => v.id == variationId) = some V :=
    find?_id_of_mem_nodup hV hVid hn
  have step₁ : acceptTextVariation db postId variationId now₁ =
      (updateWhere db postId (acceptRow V history variationId now₁),
       .ok (some (acceptRow V history variationId now₁ post))) :=
    accept_spec hpost hh hf₁
  have hread := getPost_updateWhere db postId
    (acceptRow V history variationId now₁) (fun p => rfl)
  rw [hpost, Option.map_some'] at hread
  have hh₂ : parseHistory (acceptRow V history variationId now₁ post).history =
      some { history with
        textVariations := setAccepted variationId history.textVariations } :=
    decodeHistory_encodeHistory _
  have hV₂ : ({ V with accepted := V.id == variationId } : TextVariation) ∈
      setAccepted variationId history.textVariations := by
    rw [setAccepted]
    exact List.mem_map_of_mem _ hV
  have hn₂ : ((setAccepted variationId history.textVariations).map
      TextVariation.id).Nodup := by
    rw [setAccepted, List.map_map]
    exact hn
  have hf₂ : (setAccepted variationId history.textVariations).find?
      (fun v => v.id == variationId) =
      some { V with accepted := V.id == variationId } :=
    find?_id_of_mem_nodup hV₂ hVid hn₂
  have step₂ : acceptTextVariation
      (updateWhere db postId (acceptRow V history variationId now₁))
      postId variationId now₂ =
      (updateWhere (updateWhere db postId (acceptRow V history variationId now₁))
        postId (acceptRow { V with accepted := V.id == variationId }
          { history with
            textVariations := setAccepted variationId history.textVariations }
          variationId now₂),
       .ok (some (acceptRow { V with accepted := V.id == variationId }
          { history with
            textVariations := setAccepted variationId history.textVariations }
          variationId now₂ (acceptRow V history variationId now₁ post)))) :=
    accept_spec hread hh₂ hf₂
  refine ⟨_, _, _, _, step₁, rfl, rfl, rfl, step₂, rfl, rfl, rfl, ?_⟩
  show HistoryCol.parsed (encodeHistory
      { textVariations :=
          setAccepted variationId (setAccepted variationId history.textVariations),
        imageVariations := history.imageVariations }) =
    HistoryCol.parsed (encodeHistory
      { textVariations := setAccepted variationId history.textVariations,
        imageVariations := history.imageVariations })
  rw [setAccepted_idem]

/-- C2 witness: accepting the same concrete variation twice. -/
theorem acceptTextVariation_copies_fields_idempotent_witness :
    getPost [basePost] "p1" = some basePost ∧
    parseHistory basePost.history = some exHistory ∧
    exTV1 ∈ exHistory.textVariations ∧ exTV1.id = "v1" ∧
    (exHistory.textVariations.map TextVariation.id).Nodup ∧
    (∃ db₁ p₁ db₂ p₂,
      acceptTextVariation [basePost] "p1" "v1" 5 = (db₁, .ok (some p₁)) ∧
      p₁.hook = exTV1.hook ∧ p₁.caption = exTV1.caption ∧
      p₁.hashtags = some exTV1.hashtags ∧
      acceptTextVariation db₁ "p1" "v1" 9 = (db₂, .ok (some p₂)) ∧
      p₂.hook = p₁.hook ∧ p₂.caption = p₁.caption ∧ p₂.hashtags = p₁.hashtags ∧
      p₂.history = p₁.history) :=
  ⟨rfl, rfl, by decide, rfl, by decide,
   acceptTextVariation_copies_fields_idempotent rfl rfl (by decide) rfl (by decide)⟩

/-- C6 counterexample: a post whose stored `history` text is `"\x7b\x7d"` — valid
JSON of the wrong shape. The claim predicts every operation treats it as the
empty structure and never fails; `acceptTextVariation` instead faults with a
TypeError at the first `history.textVariations` access, and the store is
returned unchanged by the throw. -/
theorem parseHistory_wrong_shape_counterexample :
    decodeHistory (Json.obj []) = none ∧
    acceptTextVariation [badHistoryPost] "p1" "v1" 3 =
      ([badHistoryPost], .error .typeError) :=
  ⟨rfl, rfl⟩

/-- C6 (amended): an absent (NULL or empty) or non-JSON-parseable `history`
column is treated as the empty structure and never fails the operations that
read it; only history text that parses as JSON without the history shape
faults (see the counterexample). On the empty structure, accept can fail only
because the variation is genuinely absent, and append/regenerate succeed. -/
theorem parseHistory_fails_open
    (db : DB) (postId variationId feedback improvedPrompt : String)
    (tone : Option ToneOption) (gen : List GeneratedVariation)
    (ids : List String) (url key archiveId newId : String) (now : Nat)
    (post : Post) (hpost : getPost db postId = some post)
    (habs : post.history = .absent ∨ post.history = .unparseable) :
    parseHistory post.history = some emptyHistory ∧
    acceptTextVariation db postId variationId now =
      (db, .error .variationNotFound) ∧
    isOkResult (createTextVariations db postId feedback tone gen ids now).2 = true ∧
    isOkResult (regenerateImage db postId feedback improvedPrompt
      (.ok (url, key)) archiveId newId now).2 = true := by
  have hemp : parseHistory post.history = some emptyHistory := by
    rcases habs with h | h <;> rw [h] <;> rfl
  refine ⟨hemp, ?_, ?_, ?_⟩
  · simp [acceptTextVariation, hpost, hemp, emptyHistory]
  · simp [createTextVariations, hpost, hemp, isOkResult]
  · simp [regenerateImage, hpost, hemp, isOkResult]

/-- C6 witness: the amended theorem on a concrete post with absent history. -/
theorem parseHistory_fails_open_witness :
    getPost [emptyUrlPost] "p1" = some emptyUrlPost ∧
    (emptyUrlPost.history = .absent ∨ emptyUrlPost.history = .unparseable) ∧
    (parseHistory emptyUrlPost.history = some emptyHistory ∧
     acceptTextVariation [emptyUrlPost] "p1" "v1" 4 =
       ([emptyUrlPost], .error .variationNotFound) ∧
     isOkResult (createTextVariations [emptyUrlPost] "p1" "fb" none exGen
       ["i1", "i2", "i3"] 4).2 = true ∧
     isOkResult (regenerateImage [emptyUrlPost] "p1" "fb" "np"
       (.ok ("u", "k")) "a1" "n1" 4).2 = true) :=
  ⟨rfl, Or.inl rfl,
   parseHistory_fails_open [emptyUrlPost] "p1" "v1" "fb" "np" none exGen
     ["i1", "i2", "i3"] "u" "k" "a1" "n1" 4 emptyUrlPost rfl (Or.inl rfl)⟩

/-- C4: a successful `createTextVariations` appends exactly the generated
records — 3 of them when the collaborator honours the requested count `hgen`
(the output schema does not enforce it locally) — to the end of the
text-variation log in generation order, each with `accepted = false` and the
feedback text of the caller; the row update touches only `history` and
`updatedAt`, so hook/caption/hashtags/status keep their values. -/
theorem createTextVariations_appends_three
    {db : DB} {postId feedback : String} {tone : Option ToneOption}
    {gen : List GeneratedVariation} {ids : List String} {now : Nat}
    {post : Post} {history : VariationHistory}
    (hpost : getPost db postId = some post)
    (hh : parseHistory post.history = some history)
    (hgen : gen.length = 3) (hids : ids.length = 3) :
    ∃ recs : List TextVariation,
      recs.length = 3 ∧
      (∀ r ∈ recs, r.accepted = false ∧ r.feedback = feedback ∧
        r.tone = tone ∧ r.createdAt = now) ∧
      createTextVariations db postId feedback tone gen ids now =
        (updateWhere db postId (appendHistoryRow history recs now),
         .ok (recs.map (fun r =>
           ({ id := r.id, hook := r.hook, caption := r.caption,
              hashtags := r.hashtags } : TextVariationResult)))) ∧
      getPost (createTextVariations db postId feedback tone gen ids now).1 postId =
        some (appendHistoryRow history recs now post) ∧
      (appendHistoryRow history recs now post).hook = post.hook ∧
      (appendHistoryRow history recs now post).caption = post.caption ∧
      (appendHistoryRow history recs now post).hashtags = post.hashtags ∧
      (appendHistoryRow history recs now post).status = post.status ∧
      parseHistory (appendHistoryRow history recs now post).history =
        some { history with textVariations := history.textVariations ++ recs } := by
  refine ⟨(gen.zip ids).map (fun vi =>
    { id := vi.2, hook := vi.1.hook, caption := vi.1.caption,
      hashtags := vi.1.hashtags, feedback := feedback, tone := tone,
      createdAt := now, accepted := false }), ?_, ?_, ?_, ?_, rfl, rfl, rfl, rfl,
    decodeHistory_encodeHistory _⟩
  · simp [List.length_zip, hgen, hids]
  · intro r hr
    rcases List.mem_map.mp hr with ⟨vi, _, rfl⟩
    exact ⟨rfl, rfl, rfl, rfl⟩
  · simp only [createTextVariations, hpost, hh]
  · simp only [createTextVariations, hpost, hh]
    rw [getPost_updateWhere db postId (appendHistoryRow history ((gen.zip ids).map
      (fun vi =>
        { id := vi.2, hook := vi.1.hook, caption := vi.1.caption,
          hashtags := vi.1.hashtags, feedback := feedback, tone := tone,
          createdAt := now, accepted := false })) now) (fun p => rfl), hpost,
      Option.map_some']

/-- C4 witness: three concrete candidates appended to a concrete post. -/
theorem createTextVariations_appends_three_witness :
    getPost [basePost] "p1" = some basePost ∧
    parseHistory basePost.history = some exHistory ∧
    exGen.length = 3 ∧ (["i1", "i2", "i3"] : List String).length = 3 ∧
    (∃ recs : List TextVariation,
      recs.length = 3 ∧
      (∀ r ∈ recs, r.accepted = false ∧ r.feedback = "shorter please" ∧
        r.tone = some ToneOption.minimal ∧ r.createdAt = 6) ∧
      createTextVariations [basePost] "p1" "shorter please"
          (some ToneOption.minimal) exGen ["i1", "i2", "i3"] 6 =
        (updateWhere [basePost] "p1" (appendHistoryRow exHistory recs 6),
         .ok (recs.map (fun r =>
           ({ id := r.id, hook := r.hook, caption := r.caption,
              hashtags := r.hashtags } : TextVariationResult)))) ∧
      getPost (createTextVariations [basePost] "p1" "shorter please"
          (some ToneOption.minimal) exGen ["i1", "i2", "i3"] 6).1 "p1" =
        some (appendHistoryRow exHistory recs 6 basePost) ∧
      (appendHistoryRow exHistory recs 6 basePost).hook = basePost.hook ∧
      (appendHistoryRow exHistory recs 6 basePost).caption = basePost.caption ∧
      (appendHistoryRow exHistory recs 6 basePost).hashtags = basePost.hashtags ∧
      (appendHistoryRow exHistory recs 6 basePost).status = basePost.status ∧
      parseHistory (appendHistoryRow exHistory recs 6 basePost).history =
        some { exHistory with
          textVariations := exHistory.textVariations ++ recs }) :=
  ⟨rfl, rfl, rfl, rfl,
   createTextVariations_appends_three rfl rfl rfl rfl⟩

/-- Characterisation of a successful `regenerateImage` run, parameterised by
the evaluated archive list (empty or the singleton archive entry). -/
theorem regen_spec (archived : List ImageVariation)
    {db : DB} {postId feedback improvedPrompt url key archiveId newId : String}
    {now : Nat} {post : Post} {history : VariationHistory}
    (hpost : getPost db postId = some post)
    (hh : parseHistory post.history = some history)
    (harch : (if isTruthy post.imageUrl
      then [archiveVariation archiveId post] else []) = archived) :
    regenerateImage db postId feedback improvedPrompt (.ok (url, key))
        archiveId newId now =
      (updateWhere db postId (regenRow improvedPrompt url key
        { history with imageVariations := history.imageVariations ++ archived ++
          [newImageVariation newId improvedPrompt url key feedback now] } now),
       .ok (some (regenRow improvedPrompt url key
        { history with imageVariations := history.imageVariations ++ archived ++
          [newImageVariation newId improvedPrompt url key feedback now] } now
          post))) := by
  simp only [regenerateImage, hpost, hh, harch]
  rw [getPost_updateWhere db postId (regenRow improvedPrompt url key
    { history with imageVariations := history.imageVariations ++ archived ++
      [newImageVariation newId improvedPrompt url key feedback now] } now)
    (fun p => rfl), hpost, Option.map_some']

/-- C3 (amended): a successful `regenerateImage` grows the image-variation log
by exactly 2 — archived original first, then the new accepted entry — when the
prior `imageUrl` was truthy (non-null and non-empty; the source guards the
archive push with JavaScript truthiness, so an empty-string url is not
archived), and by exactly 1 when it was null or empty. The archived entry
carries the prior prompt/url/key, feedback `"original"`, the `createdAt` of
the post; the new entry carries the feedback of the caller, `accepted = true`
and timestamp now. -/
theorem regenerateImage_variation_growth
    {db : DB} {postId feedback improvedPrompt url key archiveId newId : String}
    {now : Nat} {post : Post} {history : VariationHistory}
    (hpost : getPost db postId = some post)
    (hh : parseHistory post.history = some history) :
    ∃ db' p' h',
      regenerateImage db postId feedback improvedPrompt (.ok (url, key))
        archiveId newId now = (db', .ok (some p')) ∧
      parseHistory p'.history = some h' ∧
      p'.imagePrompt = improvedPrompt ∧ p'.imageUrl = some url ∧
      p'.imageKey = some key ∧ p'.status = post.status ∧
      h'.textVariations = history.textVariations ∧
      (isTruthy post.imageUrl = true →
        h'.imageVariations = history.imageVariations ++
          [archiveVariation archiveId post,
           newImageVariation newId improvedPrompt url key feedback now] ∧
        h'.imageVariations.length = history.imageVariations.length + 2) ∧
      (isTruthy post.imageUrl = false →
        h'.imageVariations = history.imageVariations ++
          [newImageVariation newId improvedPrompt url key feedback now] ∧
        h'.imageVariations.length = history.imageVariations.length + 1) := by
  by_cases hu : isTruthy post.imageUrl = true
  · refine ⟨_, _, _, regen_spec [archiveVariation archiveId post] hpost hh
      (by simp [hu]), decodeHistory_encodeHistory _, rfl, rfl, rfl, rfl, rfl,
      ?_, ?_⟩
    · intro _
      constructor
      · rw [List.append_assoc]
        rfl
      · simp [List.length_append]
    · intro hfalse
      rw [hu] at hfalse
      cases hfalse
  · have hu' : isTruthy post.imageUrl = false := by simpa using hu
    refine ⟨_, _, _, regen_spec [] hpost hh (by simp [hu']),
      decodeHistory_encodeHistory _, rfl, rfl, rfl, rfl, rfl, ?_, ?_⟩
    · intro htrue
      rw [hu'] at htrue
      cases htrue
    · intro _
      constructor
      · simp
      · simp [List.length_append]

/-- C3 witness: regenerating on a concrete post with a truthy image url. -/
theorem regenerateImage_variation_growth_witness :
    getPost [basePost] "p1" = some basePost ∧
    parseHistory basePost.history = some exHistory ∧
    (∃ db' p' h',
      regenerateImage [basePost] "p1" "fb" "np" (.ok ("u", "k")) "a1" "n1" 8 =
        (db', .ok (some p')) ∧
      parseHistory p'.history = some h' ∧
      p'.imagePrompt = "np" ∧ p'.imageUrl = some "u" ∧ p'.imageKey = some "k" ∧
      p'.status = basePost.status ∧
      h'.textVariations = exHistory.textVariations ∧
      (isTruthy basePost.imageUrl = true →
        h'.imageVariations = exHistory.imageVariations ++
          [archiveVariation "a1" basePost,
           newImageVariation "n1" "np" "u" "k" "fb" 8] ∧
        h'.imageVariations.length = exHistory.imageVariations.length + 2) ∧
      (isTruthy basePost.imageUrl = false →
        h'.imageVariations = exHistory.imageVariations ++
          [newImageVariation "n1" "np" "u" "k" "fb" 8] ∧
        h'.imageVariations.length = exHistory.imageVariations.length + 1)) :=
  ⟨rfl, rfl, regenerateImage_variation_growth rfl rfl⟩

/-- C3 counterexample: a post whose current `imageUrl` is the empty string —
non-null — on which a successful `regenerateImage` grows the image-variation
log by exactly 1, not 2: the falsy url is not archived. -/
theorem regenerateImage_nonnull_counterexample :
    emptyUrlPost.imageUrl = some "" ∧
    isOkResult (regenerateImage [emptyUrlPost] "p1" "fb" "np"
      (.ok ("u", "k")) "a1" "n1" 7).2 = true ∧
    ((getPost (regenerateImage [emptyUrlPost] "p1" "fb" "np"
        (.ok ("u", "k")) "a1" "n1" 7).1 "p1").bind
      (fun p => (parseHistory p.history).map
        (fun h => h.imageVariations.length))) = some 1 :=
  ⟨rfl, rfl, rfl⟩

/-- C8: each status-change operation surfaces a missing post id as the
not-found result of the re-read after the (row-less) update: the returned
post is `none` exactly when no row carries the id. The update maps only
matching rows, so existence at read time after the update coincides with
existence before it. -/
theorem statusOps_notFound (db : DB) (id : String) (user : Option String)
    (now : Nat) :
    ((approvePost db id user now).2 = none ↔ getPost db id = none) ∧
    ((rejectPost db id user now).2 = none ↔ getPost db id = none) ∧
    ((markPostAsPosted db id user now).2 = none ↔ getPost db id = none) := by
  refine ⟨?_, ?_, ?_⟩
  · simp only [approvePost]
    rw [getPost_updateWhere db id (fun p =>
      { p with status := .approved, approvedBy := user, updatedAt := now })
      (fun p => rfl)]
    exact Option.map_eq_none'
  · simp only [rejectPost]
    rw [getPost_updateWhere db id (fun p =>
      { p with status := .rejected, rejectedBy := user, updatedAt := now })
      (fun p => rfl)]
    exact Option.map_eq_none'
  · simp only [markPostAsPosted]
    rw [getPost_updateWhere db id (fun p =>
      { p with status := .posted, postedBy := user, updatedAt := now })
      (fun p => rfl)]
    exact Option.map_eq_none'

/-- C9: batch generation inserts one `draft` post per candidate under the
shared batch id; the row of candidate `j` is a function of the inputs of
candidate `j` only (so an image failure elsewhere cannot affect it), a failed
image outcome yields null image columns in that row only, and every row is
inserted regardless of failures. -/
theorem generatePostsBatch_partial_failure
    (db : DB) (batchId : String) (contents : List GeneratedContent)
    (outs : List (Except Unit (String × String))) (ids : List String)
    (createdBy : Option String) (now : Nat)
    (houts : outs.length = contents.length)
    (hids : ids.length = contents.length) :
    (generatePostsBatch db batchId contents outs ids createdBy now).2.posts.length
        = contents.length ∧
    (∀ p ∈ (generatePostsBatch db batchId contents outs ids createdBy now).2.posts,
      p.status = .draft ∧ p.batchId = batchId ∧ p.createdBy = createdBy) ∧
    (∀ j c o i, contents.get? j = some c → outs.get? j = some o →
      ids.get? j = some i →
      (generatePostsBatch db batchId contents outs ids createdBy now).2.posts.get? j
        = some (mkBatchPost c o i batchId createdBy now)) ∧
    (∀ c i, (mkBatchPost c (.error ()) i batchId createdBy now).imageUrl = none ∧
      (mkBatchPost c (.error ()) i batchId createdBy now).imageKey = none ∧
      (mkBatchPost c (.error ()) i batchId createdBy now).status = .draft) ∧
    (generatePostsBatch db batchId contents outs ids createdBy now).1 =
      db ++ (generatePostsBatch db batchId contents outs ids createdBy now).2.posts := by
  refine ⟨?_, ?_, ?_, ?_, rfl⟩
  · simp [generatePostsBatch, List.length_zip, houts, hids]
  · intro p hp
    simp only [generatePostsBatch] at hp
    rcases List.mem_map.mp hp with ⟨x, _, rfl⟩
    exact ⟨rfl, rfl, rfl⟩
  · intro j c o i hc ho hi
    simp only [generatePostsBatch]
    rw [List.get?_map, get?_zip_eq, get?_zip_eq, hc, ho, hi]
    rfl
  · intro c i
    exact ⟨rfl, rfl, rfl⟩

/-- C9 witness: a two-candidate batch whose second image generation fails —
both rows inserted as drafts under the batch id, the second with null image
columns, the first untouched by the failure. -/
theorem generatePostsBatch_partial_failure_witness :
    ([Except.ok ("u1", "k1"), Except.error ()] :
      List (Except Unit (String × String))).length =
      [exContent1, exContent2].length ∧
    (["n1", "n2"] : List String).length = [exContent1, exContent2].length ∧
    (generatePostsBatch [] "b9" [exContent1, exContent2]
      [Except.ok ("u1", "k1"), Except.error ()] ["n1", "n2"] none 9).2.posts.length
      = 2 ∧
    (generatePostsBatch [] "b9" [exContent1, exContent2]
      [Except.ok ("u1", "k1"), Except.error ()] ["n1", "n2"] none 9).2.posts.get? 0
      = some (mkBatchPost exContent1 (.ok ("u1", "k1")) "n1" "b9" none 9) ∧
    (generatePostsBatch [] "b9" [exContent1, exContent2]
      [Except.ok ("u1", "k1"), Except.error ()] ["n1", "n2"] none 9).2.posts.get? 1
      = some (mkBatchPost exContent2 (.error ()) "n2" "b9" none 9) ∧
    (mkBatchPost exContent2 (.error ()) "n2" "b9" none 9).imageUrl = none ∧
    (mkBatchPost exContent2 (.error ()) "n2" "b9" none 9).imageKey = none ∧
    (mkBatchPost exContent2 (.error ()) "n2" "b9" none 9).status = .draft :=
  ⟨rfl, rfl,
   (generatePostsBatch_partial_failure [] "b9" [exContent1, exContent2]
     [Except.ok ("u1", "k1"), Except.error ()] ["n1", "n2"] none 9 rfl rfl).1,
   (generatePostsBatch_partial_failure [] "b9" [exContent1, exContent2]
     [Except.ok ("u1", "k1"), Except.error ()] ["n1", "n2"] none 9 rfl rfl).2.2.1
     0 exContent1 (.ok ("u1", "k1")) "n1" rfl rfl rfl,
   (generatePostsBatch_partial_failure [] "b9" [exContent1, exContent2]
     [Except.ok ("u1", "k1"), Except.error ()] ["n1", "n2"] none 9 rfl rfl).2.2.1
     1 exContent2 (.error ()) "n2" rfl rfl rfl,
   ((generatePostsBatch_partial_failure [] "b9" [exContent1, exContent2]
     [Except.ok ("u1", "k1"), Except.error ()] ["n1", "n2"] none 9 rfl rfl).2.2.2.1
     exContent2 "n2").1,
   ((generatePostsBatch_partial_failure [] "b9" [exContent1, exContent2]
     [Except.ok ("u1", "k1"), Except.error ()] ["n1", "n2"] none 9 rfl rfl).2.2.2.1
     exContent2 "n2").2.1,
   ((generatePostsBatch_partial_failure [] "b9" [exContent1, exContent2]
     [Except.ok ("u1", "k1"), Except.error ()] ["n1", "n2"] none 9 rfl rfl).2.2.2.1
     exContent2 "n2").2.2⟩

/-- C10: `deletePost` on a missing id completes without any error — its only
fallible call (the best-effort R2 blob delete) is reached only for an existing
post and is caught even then — and leaves the posts table and the blob store
unchanged. -/
theorem deletePost_missing_id (db : DB) (r2 : List String) (r2ok : Bool)
    (id : String) (h : getPost db id = none) :
    deletePost db r2 r2ok id = (db, r2) := by
  have hall := List.find?_eq_none.mp h
  have hfil : db.filter (fun p => !(p.id == id)) = db := by
    apply List.filter_eq_self.mpr
    intro p hp
    simpa using hall p hp
  simp only [deletePost, h, hfil]

/-- C10 witness: deleting a nonexistent id next to an unrelated post. -/
theorem deletePost_missing_id_witness :
    getPost [basePost] "zz" = none ∧
    deletePost [basePost] ["key"] true "zz" = ([basePost], ["key"]) :=
  ⟨rfl, deletePost_missing_id [basePost] ["key"] true "zz" rfl⟩
